import Mathlib

/-!
Verification of the template-instantiation and dependency/status engine of the
onboarding portal (`app.py`, `init_db.py`).

The SQLite tables are embedded as Lean lists of records; each mutating route is
a pure function from state to state.  SQL `NULL` becomes `Option`, SQL
timestamps and dates become integer day/tick counts (`datetime` arithmetic in
the source is exact day arithmetic), and Python float arithmetic in
`rag_status` is embedded as exact rational arithmetic.
-/

namespace Onboarding

/-- Task / phase status enum: the three values accepted by
`update_task_status` and stored in `tasks.status` / `phases.status`. -/
inductive Status where
  | pending
  | in_progress
  | completed
deriving DecidableEq, Repr

/-- A row of the `tasks` table (the columns the core engine touches). -/
structure Task where
  id : Nat
  phase_id : Nat
  task_order : Nat
  status : Status
  started_at : Option Nat
  completed_at : Option Nat
deriving DecidableEq, Repr

/-- A row of the `phases` table (the columns the core engine touches). -/
structure Phase where
  id : Nat
  project_id : Nat
  phase_number : Nat
  status : Status
  target_start : Option Int
  target_end : Option Int
  started_at : Option Nat
  completed_at : Option Nat
deriving DecidableEq, Repr

/-- A row of the `phase_dependencies` table. -/
structure PhaseDep where
  project_id : Nat
  phase_id : Nat
  depends_on_phase_id : Nat
deriving DecidableEq, Repr

/-- Project-level state: the three tables the dependency/status engine reads
and writes. -/
structure State where
  phases : List Phase
  tasks : List Task
  deps : List PhaseDep
deriving DecidableEq, Repr

/-- The task-row update of `update_task_status` (app.py:600-608): one of the
three `UPDATE tasks ...` statements, applied to a single row.
`in_progress` keeps `COALESCE(started_at, now)`; `completed` overwrites
`completed_at`; `pending` clears both timestamps. -/
def applyTaskStatus (ns : Status) (now : Nat) (t : Task) : Task :=
  match ns with
  | .in_progress => { t with status := ns, started_at := some (t.started_at.getD now) }
  | .completed => { t with status := ns, completed_at := some now }
  | .pending => { t with status := ns, started_at := none, completed_at := none }

/-- The phase-row update of `update_task_status` (app.py:615-620), given the
completed / in-progress / total counts of the phase's tasks. -/
def applyPhaseRollup (now : Nat) (done prog total : Nat) (ph : Phase) : Phase :=
  if done = total ∧ 0 < total then
    { ph with status := .completed, completed_at := some now }
  else if 0 < prog ∨ 0 < done then
    { ph with status := .in_progress, started_at := some (ph.started_at.getD now) }
  else
    { ph with status := .pending }

/-- Tasks of one phase: `SELECT ... FROM tasks WHERE phase_id=?`. -/
def tasksOfPhase (tasks : List Task) (pid : Nat) : List Task :=
  tasks.filter (fun t => t.phase_id == pid)

/-- Embeds `SELECT COUNT(*) FROM tasks WHERE phase_id=? AND status=?`. -/
def countWithStatus (tasks : List Task) (pid : Nat) (st : Status) : Nat :=
  ((tasksOfPhase tasks pid).filter (fun t => t.status == st)).length

/-- The phase-recomputation step of `update_task_status` (app.py:609-620):
if the task row exists, recount its phase's tasks and rewrite the phase row;
a missing task (`if t:`) leaves the phases untouched. -/
def rollupPhases (now : Nat) (phases : List Phase) (tasks1 : List Task) :
    Option Task → List Phase
  | none => phases
  | some t =>
    let pid := t.phase_id
    let total := (tasksOfPhase tasks1 pid).length
    let done := countWithStatus tasks1 pid .completed
    let prog := countWithStatus tasks1 pid .in_progress
    phases.map (fun ph =>
      if ph.id == pid then applyPhaseRollup now done prog total ph else ph)

/-- Route `POST /api/task/{task_id}/status` (app.py:592-622): update the task row
per the new status, then recompute the owning phase from the task counts. -/
def update_task_status (s : State) (task_id : Nat) (ns : Status) (now : Nat) : State :=
  let tasks1 := s.tasks.map (fun t => if t.id == task_id then applyTaskStatus ns now t else t)
  { phases := rollupPhases now s.phases tasks1 (tasks1.find? (fun t => t.id == task_id)),
    tasks := tasks1,
    deps := s.deps }

/-- The phase status that the rollup of `update_task_status` derives from a
task list: completed iff all of a non-empty set are completed, in_progress iff
some task is in_progress or completed, else pending. -/
def rollupStatus (ts : List Task) : Status :=
  let total := ts.length
  let done := (ts.filter (fun t => t.status == Status.completed)).length
  let prog := (ts.filter (fun t => t.status == Status.in_progress)).length
  if done = total ∧ 0 < total then .completed
  else if 0 < prog ∨ 0 < done then .in_progress
  else .pending

/-- Every phase's stored status agrees with the rollup of its current tasks. -/
def phaseConsistent (s : State) : Bool :=
  s.phases.all (fun ph => ph.status == rollupStatus (tasksOfPhase s.tasks ph.id))

/-- Route `POST /api/task/create` (app.py:625-639): insert a new `pending` task at
`MAX(task_order)+1` within the phase.  The phase row is not recomputed. -/
def create_task (s : State) (phase_id : Nat) (new_id : Nat) : State :=
  let mx := ((tasksOfPhase s.tasks phase_id).map Task.task_order).foldl max 0
  { s with tasks := s.tasks ++
      [{ id := new_id, phase_id := phase_id, task_order := mx + 1,
         status := .pending, started_at := none, completed_at := none }] }

/-- Route `DELETE /api/task/{task_id}` (app.py:661-667): delete the task row.
The phase row is not recomputed. -/
def delete_task (s : State) (task_id : Nat) : State :=
  { s with tasks := s.tasks.filter (fun t => ¬ t.id == task_id) }

/-- Route `PUT /api/phase/{phase_id}` (app.py:686-701): `COALESCE` update of the
phase row; a non-null `status` in the body is written directly. -/
def update_phase (s : State) (phase_id : Nat) (name_number : Option Nat)
    (st : Option Status) (tstart tend : Option Int) : State :=
  { s with phases := s.phases.map (fun ph =>
      if ph.id == phase_id then
        { ph with phase_number := name_number.getD ph.phase_number,
                  status := st.getD ph.status,
                  target_start := (tstart.map some).getD ph.target_start,
                  target_end := (tend.map some).getD ph.target_end }
      else ph) }

/-- Embeds `SELECT ... FROM phases WHERE project_id=?` (app.py:283-289). -/
def projectPhases (s : State) (project_id : Nat) : List Phase :=
  s.phases.filter (fun ph => ph.project_id == project_id)

/-- The dependency rows of one project as read by `project_detail`
(app.py:291-299): the query filters on `pd.project_id` and joins both
endpoints against the **whole** `phases` table, so an edge survives whenever
its two phase ids exist at all — also when the prerequisite phase belongs to
a different project (such edges are creatable via `POST /api/phase/create`,
app.py:679-681, which accepts arbitrary `depends_on` ids). -/
def projectDeps (s : State) (project_id : Nat) : List PhaseDep :=
  (s.deps.filter (fun d => d.project_id == project_id)).filter (fun d =>
    (s.phases.any (fun p => p.id == d.phase_id)) &&
    (s.phases.any (fun p => p.id == d.depends_on_phase_id)))

/-- Embeds `phase_status.get(...)` over the dict built at app.py:312, which
holds only the phases of the displayed project; a prerequisite id outside
the project looks up as `none`. -/
def statusOfPhase (phases : List Phase) (pid : Nat) : Option Status :=
  (phases.find? (fun p => p.id == pid)).map Phase.status

/-- The `is_locked` computation of `project_detail` (app.py:313-315): a phase
is locked iff some prerequisite edge points at a phase id whose status in
the project-local dict is not `completed` — a lookup miss (`None`) also
counts as locked.  Recomputed from the current rows on every read. -/
def is_locked (s : State) (project_id : Nat) (ph : Phase) : Bool :=
  ((projectDeps s project_id).filter (fun d => d.phase_id == ph.id)).any (fun d =>
    !(statusOfPhase (projectPhases s project_id) d.depends_on_phase_id
        == some Status.completed))

/-- RAG health values returned by `rag_status`. -/
inductive Rag where
  | green
  | amber
  | red
  | gray
deriving DecidableEq, Repr

/-- The project fields `rag_status` reads: the two dates (as day numbers,
`none` for NULL/missing) and the task counters computed by the callers'
subqueries. -/
structure ProjSummary where
  start_date : Option Int
  target_completion : Option Int
  total_tasks : Nat
  completed_tasks : Nat
deriving DecidableEq, Repr

/-- The `diff` of `rag_status` (app.py:54-59): schedule-vs-progress variance
in exact rational arithmetic (the source computes it in Python floats). -/
def ragDiff (startD target : Int) (today : Int) (total_tasks completed_tasks : Nat) : ℚ :=
  let total_days : ℚ := max ((target - startD : Int) : ℚ) 1
  let elapsed : ℚ := ((today - startD : Int) : ℚ)
  let expected_pct : ℚ := min 100 (max 0 (elapsed / total_days * 100))
  let total : ℚ := if total_tasks = 0 then 1 else (total_tasks : ℚ)
  let actual_pct : ℚ := (completed_tasks : ℚ) / total * 100
  actual_pct - expected_pct

/-- Function `rag_status` (app.py:48-64): gray when either date is missing, otherwise
green / amber / red by thresholding `diff` at −10 and −25. -/
def rag_status (p : ProjSummary) (today : Int) : Rag :=
  match p.start_date, p.target_completion with
  | some s, some t =>
    let diff := ragDiff s t today p.total_tasks p.completed_tasks
    if -10 ≤ diff then .green
    else if -25 ≤ diff then .amber
    else .red
  | _, _ => .gray

/-- A row of `template_task_actions` (and the `actions` entries of the
exchange format). -/
structure TAction where
  action_type : String
  action_label : String
  action_url : String
deriving DecidableEq, Repr

/-- A row of `template_tasks` (init_db.py:112-127) with the extra columns
the task routes write.  `jira_reference`, `sample_reference` and `notes` are
nullable reference columns, writable through the template-task CRUD routes
(app.py:1213-1239).  `automation_config` is the JSON value stored in the
column, carried as its canonical text: `json.loads` in export and
`json.dumps` in import are mutually inverse on parsed values, so both are
embedded as the identity on this field. -/
structure TTask where
  task_order : Nat
  task_name : String
  category : String
  description : String
  ownership : String
  instructions : String
  jira_reference : Option String
  sample_reference : Option String
  notes : Option String
  estimated_minutes : Nat
  priority : String
  automation_type : String
  automation_config : String
  actions : List TAction
deriving DecidableEq, Repr

/-- A row of `template_phases` together with its tasks. -/
structure TPhase where
  phase_number : Nat
  phase_name : String
  duration_days : Nat
  tasks : List TTask
deriving DecidableEq, Repr

/-- A row of `template_phase_dependencies`: a phase-number-keyed edge. -/
structure TDep where
  phase_number : Nat
  depends_on_phase_number : Nat
deriving DecidableEq, Repr

/-- A template with its full phase / task / action / dependency subtree. -/
structure Template where
  template_name : String
  description : String
  version : String
  phases : List TPhase
  deps : List TDep
deriving DecidableEq, Repr

/-- Embeds `ORDER BY phase_number` on a materialized phase list. -/
def sortPhases (ps : List TPhase) : List TPhase :=
  ps.insertionSort (fun a b => a.phase_number ≤ b.phase_number)

/-- Embeds `ORDER BY task_order` on a materialized task list. -/
def sortTasks (ts : List TTask) : List TTask :=
  ts.insertionSort (fun a b => a.task_order ≤ b.task_order)

/-- The field loss shared by the copy routes: the clone task INSERT
(app.py:865-871), the export task serialization (app.py:904-912) and the
importing task INSERT (app.py:947-953) all omit the `jira_reference`,
`sample_reference` and `notes` columns, so every copied task carries NULL in
those three columns regardless of the source row. -/
def stripTask (t : TTask) : TTask :=
  { t with jira_reference := none, sample_reference := none, notes := none }

/-- Route `POST /api/template/{id}/clone` (app.py:839-885): deep copy under
`new_name`, or `"<name> (Copy)"` when no name is given; phases are read
`ORDER BY phase_number`, tasks `ORDER BY task_order` (their INSERT skips the
three reference columns, see `stripTask`), actions and dependency rows
verbatim.  Fresh row ids are not modeled. -/
def api_clone_template (T : Template) (new_name : String) : Template :=
  { template_name := if new_name = "" then T.template_name ++ " (Copy)" else new_name,
    description := T.description,
    version := T.version,
    phases := (sortPhases T.phases).map
      (fun p => { p with tasks := (sortTasks p.tasks).map stripTask }),
    deps := T.deps }

/-- The canonical exchange structure produced by export and consumed by
the importing route (app.py:920-924). -/
structure ExportData where
  template_name : String
  description : String
  version : String
  phases : List TPhase
  dependencies : List TDep
deriving DecidableEq, Repr

/-- Route `GET /api/template/{id}/export` (app.py:888-927): serialize the
template, phases `ORDER BY phase_number`, tasks `ORDER BY task_order`; the
per-task dict (app.py:904-912) has no keys for the three reference columns,
so they are absent from the exported structure (`stripTask`). -/
def api_export_template (T : Template) : ExportData :=
  { template_name := T.template_name,
    description := T.description,
    version := T.version,
    phases := (sortPhases T.phases).map
      (fun p => { p with tasks := (sortTasks p.tasks).map stripTask }),
    dependencies := T.deps }

/-- Route `POST /api/template/import` (app.py:930-963): insert the template
under its name (suffixed on collision with an existing name), then every
phase, task and action in input order — the task INSERT (app.py:947-953)
never writes the three reference columns, so they come out NULL
(`stripTask`) — then every `dependencies` entry verbatim: the route performs
no check that a dependency's phase numbers occur among the input's phases. -/
def api_import_template (E : ExportData) (existing_names : List String)
    (suffix : String) : Template :=
  { template_name :=
      if existing_names.contains E.template_name then E.template_name ++ suffix
      else E.template_name,
    description := E.description,
    version := E.version,
    phases := E.phases.map (fun p => { p with tasks := p.tasks.map stripTask }),
    deps := E.dependencies }

/-- Test `pnum in [1, 2, 3]` (init_db.py:261): the hardcoded main sequential
track. -/
def mainTrack (n : Nat) : Bool :=
  [1, 2, 3].contains n

/-- A task created by instantiation: copied from the template task with
status reset to `pending` and null timestamps (init_db.py:244-250). -/
structure InstTask where
  task_order : Nat
  task_name : String
  status : Status
  started_at : Option Nat
  completed_at : Option Nat
deriving DecidableEq, Repr

/-- A phase row created by instantiation (init_db.py:229-231), with its
copied tasks. -/
structure SchedPhase where
  phase_number : Nat
  phase_name : String
  status : Status
  target_start : Int
  target_end : Int
  tasks : List InstTask
deriving DecidableEq, Repr

/-- The per-phase loop of `create_project_from_template` (init_db.py:225-262):
each phase gets `target_start = cursor`, `target_end = cursor + duration_days`;
the cursor advances by `duration_days` only after a main-track phase. -/
def schedulePhases : List TPhase → Int → List SchedPhase
  | [], _ => []
  | p :: rest, cur =>
    { phase_number := p.phase_number,
      phase_name := p.phase_name,
      status := .pending,
      target_start := cur,
      target_end := cur + (p.duration_days : Int),
      tasks := p.tasks.map (fun t =>
        { task_order := t.task_order, task_name := t.task_name,
          status := .pending, started_at := none, completed_at := none }) } ::
    schedulePhases rest
      (if mainTrack p.phase_number then cur + (p.duration_days : Int) else cur)

/-- The dependency translation of `create_project_from_template`
(init_db.py:264-272): an edge survives iff both its phase numbers are keys of
`phase_lookup`, i.e. phase numbers of the template; surviving edges are
rewritten to the fresh phase ids, a bijection on the created phases, so the
edge set is represented here by its phase-number pairs. -/
def instantiateDeps (T : Template) : List TDep :=
  let nums := T.phases.map TPhase.phase_number
  T.deps.filter (fun d =>
    nums.contains d.phase_number ∧ nums.contains d.depends_on_phase_number)

/-- Function `create_project_from_template` (init_db.py:215-272): phases scheduled in
`ORDER BY phase_number` starting from the project start date, plus the
translated dependency edges. -/
def create_project_from_template (T : Template) (start : Int) :
    List SchedPhase × List TDep :=
  (schedulePhases (sortPhases T.phases) start, instantiateDeps T)

/-- Cursor displacement contributed by a list of phases: the sum of
`duration_days` over its main-track phases. -/
def trackAdvance (ps : List TPhase) : Int :=
  (ps.map (fun p => if mainTrack p.phase_number then (p.duration_days : Int) else 0)).sum

/-- A calendar date, as parsed by `datetime.strptime(.., "%Y-%m-%d")`. -/
structure CDate where
  year : Int
  month : Int
  day : Int
deriving DecidableEq, Repr

/-- Proleptic Gregorian day number of a date (days-from-civil); `date`
subtraction in Python is exactly the difference of these numbers. -/
def toEpochDays (d : CDate) : Int :=
  let y := if d.month ≤ 2 then d.year - 1 else d.year
  let era := (if 0 ≤ y then y else y - 399) / 400
  let yoe := y - era * 400
  let mp := (d.month + 9) % 12
  let doy := (153 * mp + 2) / 5 + d.day - 1
  let doe := yoe * 365 + yoe / 4 - yoe / 100 + doy
  era * 146097 + doe - 719468

/-- Function `calc_variance` (app.py:1386-1392): `(actual − agreed).days` when both
dates are present, else SQL NULL. -/
def calc_variance (agreed actual : Option CDate) : Option Int :=
  match agreed, actual with
  | some a, some b => some (toEpochDays b - toEpochDays a)
  | _, _ => none

/-- A row of `phase_deadlines` (row id and `updated_at` not modeled). -/
structure PhaseDeadline where
  phase_id : Nat
  ownership : String
  planned_date : Option CDate
  agreed_date : Option CDate
  actual_date : Option CDate
  variance_days : Option Int
  notes : String
deriving DecidableEq, Repr

/-- A row of `task_deadlines` (unique per task, no ownership split). -/
structure TaskDeadline where
  task_id : Nat
  planned_date : Option CDate
  agreed_date : Option CDate
  actual_date : Option CDate
  variance_days : Option Int
  notes : String
deriving DecidableEq, Repr

/-- The `(phase_id, ownership)` key of the phase-deadline upsert. -/
def pdKey (pid : Nat) (own : String) (r : PhaseDeadline) : Bool :=
  r.phase_id == pid && r.ownership == own

/-- Embeds `UPDATE ... WHERE id = <first match>`: rewrite the first row satisfying
`p` (the key is unique in the table, per the schema's UNIQUE constraint). -/
def replaceFirst (p : α → Bool) (f : α → α) : List α → List α
  | [] => []
  | x :: xs => if p x then f x :: xs else x :: replaceFirst p f xs

/-- Route `POST /api/phase/{id}/deadline` (app.py:1395-1421): upsert keyed by
`(phase_id, ownership)` with `variance_days = calc_variance agreed actual`. -/
def api_set_phase_deadline (store : List PhaseDeadline) (pid : Nat) (own : String)
    (planned agreed actual : Option CDate) (notes : String) : List PhaseDeadline :=
  let v := calc_variance agreed actual
  if store.any (pdKey pid own) then
    replaceFirst (pdKey pid own)
      (fun r => { r with planned_date := planned, agreed_date := agreed,
                         actual_date := actual, variance_days := v, notes := notes })
      store
  else
    store ++ [{ phase_id := pid, ownership := own, planned_date := planned,
                agreed_date := agreed, actual_date := actual,
                variance_days := v, notes := notes }]

/-- Route `POST /api/task/{id}/deadline` (app.py:1434-1455): upsert keyed by
`task_id`, same variance formula. -/
def api_set_task_deadline (store : List TaskDeadline) (tid : Nat)
    (planned agreed actual : Option CDate) (notes : String) : List TaskDeadline :=
  let v := calc_variance agreed actual
  if store.any (fun r => r.task_id == tid) then
    replaceFirst (fun r => r.task_id == tid)
      (fun r => { r with planned_date := planned, agreed_date := agreed,
                         actual_date := actual, variance_days := v, notes := notes })
      store
  else
    store ++ [{ task_id := tid, planned_date := planned, agreed_date := agreed,
                actual_date := actual, variance_days := v, notes := notes }]

/-- Embeds `variance_days IS NOT NULL AND variance_days <= 0` (app.py:1487). -/
def onTime (v : Option Int) : Bool :=
  match v with
  | some n => n ≤ 0
  | none => false

/-- Embeds `variance_days > 0 AND variance_days <= 3` (app.py:1488); SQL comparisons
with NULL do not count. -/
def minorSlip (v : Option Int) : Bool :=
  match v with
  | some n => 0 < n ∧ n ≤ 3
  | none => false

/-- Embeds `variance_days > 3` (app.py:1489). -/
def majorSlip (v : Option Int) : Bool :=
  match v with
  | some n => 3 < n
  | none => false

/-- The `stats` block of the variance report (app.py:1484-1505). -/
structure VarianceStats where
  total_deadlines : Nat
  on_time : Nat
  minor_slip : Nat
  major_slip : Nat
  avg_variance : Option ℚ
deriving DecidableEq, Repr

/-- Route `GET /api/project/{id}/variance` summary over the project's
`phase_deadlines` rows (app.py:1484-1494): slip counts and `AVG`, which in
SQL averages exactly the non-NULL variances (NULL when there are none; the
route renders that NULL as 0). -/
def api_project_variance (ds : List PhaseDeadline) : VarianceStats :=
  let vs := ds.filterMap PhaseDeadline.variance_days
  { total_deadlines := ds.length,
    on_time := (ds.filter (fun r => onTime r.variance_days)).length,
    minor_slip := (ds.filter (fun r => minorSlip r.variance_days)).length,
    major_slip := (ds.filter (fun r => majorSlip r.variance_days)).length,
    avg_variance :=
      if vs.isEmpty then none
      else some ((vs.map (fun n => (n : ℚ))).sum / (vs.length : ℚ)) }

/-! Supporting lemmas about the row-update helpers. -/

@[simp]
theorem applyTaskStatus_id (ns : Status) (now : Nat) (t : Task) :
    (applyTaskStatus ns now t).id = t.id := by
  cases ns <;> rfl

@[simp]
theorem applyTaskStatus_phase_id (ns : Status) (now : Nat) (t : Task) :
    (applyTaskStatus ns now t).phase_id = t.phase_id := by
  cases ns <;> rfl

@[simp]
theorem applyTaskStatus_status (ns : Status) (now : Nat) (t : Task) :
    (applyTaskStatus ns now t).status = ns := by
  cases ns <;> rfl

@[simp]
theorem applyPhaseRollup_id (now done prog total : Nat) (ph : Phase) :
    (applyPhaseRollup now done prog total ph).id = ph.id := by
  unfold applyPhaseRollup
  split
  · rfl
  · split <;> rfl

theorem find?_map_pres {α : Type} (f : α → α) (p : α → Bool)
    (h : ∀ a, p (f a) = p a) (l : List α) :
    (l.map f).find? p = (l.find? p).map f := by
  induction l with
  | nil => rfl
  | cons a l ih =>
    by_cases hpa : p a = true
    · rw [List.map_cons, List.find?_cons_of_pos _ ((h a).trans hpa),
          List.find?_cons_of_pos _ hpa]
      rfl
    · rw [List.map_cons, List.find?_cons_of_neg _ (by rw [h a]; simpa using hpa),
          List.find?_cons_of_neg _ (by simpa using hpa), ih]

/-- The `find?` after the task-row `UPDATE` returns the updated first match. -/
theorem updatedTasks_find? (s : State) (tid : Nat) (ns : Status) (now : Nat)
    (t0 : Task) (ht : s.tasks.find? (fun t => t.id == tid) = some t0) :
    (s.tasks.map (fun t => if t.id == tid then applyTaskStatus ns now t else t)).find?
      (fun t => t.id == tid) = some (applyTaskStatus ns now t0) := by
  rw [find?_map_pres]
  · rw [ht, Option.map_some']
    have hid : (t0.id == tid) = true := by simpa using List.find?_some ht
    rw [if_pos hid]
  · intro a
    by_cases ha : (a.id == tid) = true
    · simp [ha]
    · simp [ha]

/-- The `find?` after the phase-row `UPDATE` returns the updated first match. -/
theorem rolledPhases_find? (phases : List Phase) (pid : Nat)
    (now done prog total : Nat) (ph0 : Phase)
    (hp : phases.find? (fun p => p.id == pid) = some ph0) :
    (phases.map (fun ph =>
        if ph.id == pid then applyPhaseRollup now done prog total ph else ph)).find?
      (fun p => p.id == pid) = some (applyPhaseRollup now done prog total ph0) := by
  rw [find?_map_pres]
  · rw [hp, Option.map_some']
    have hid : (ph0.id == pid) = true := by simpa using List.find?_some hp
    rw [if_pos hid]
  · intro a
    by_cases ha : (a.id == pid) = true
    · simp [ha]
    · simp [ha]

/-- Claim C1: for an existing task and a valid status, `update_task_status`
updates the task row — `in_progress` sets `started_at` to now only if it was
null and leaves `completed_at` untouched; `completed` overwrites
`completed_at` with now; `pending` clears both — and then recomputes the
owning phase from its task set: all-of-a-nonempty-set completed makes the
phase `completed` with `completed_at = now`; otherwise some completed or
in-progress task makes it `in_progress` with `started_at` set only if
previously null; otherwise it becomes `pending`. -/
theorem c1_update_task_status (s : State) (tid : Nat) (ns : Status) (now : Nat)
    (t0 : Task) (ph0 : Phase)
    (ht : s.tasks.find? (fun t => t.id == tid) = some t0)
    (hp : s.phases.find? (fun p => p.id == t0.phase_id) = some ph0) :
    ∃ t1 ph1,
      (update_task_status s tid ns now).tasks.find? (fun t => t.id == tid) = some t1 ∧
      (update_task_status s tid ns now).phases.find? (fun p => p.id == t0.phase_id)
        = some ph1 ∧
      (ns = .in_progress →
        t1.status = .in_progress ∧
        (t0.started_at = none → t1.started_at = some now) ∧
        (t0.started_at ≠ none → t1.started_at = t0.started_at) ∧
        t1.completed_at = t0.completed_at) ∧
      (ns = .completed →
        t1.status = .completed ∧ t1.completed_at = some now ∧
        t1.started_at = t0.started_at) ∧
      (ns = .pending →
        t1.status = .pending ∧ t1.started_at = none ∧ t1.completed_at = none) ∧
      (∀ done prog total : Nat,
        done = countWithStatus (update_task_status s tid ns now).tasks t0.phase_id .completed →
        prog = countWithStatus (update_task_status s tid ns now).tasks t0.phase_id .in_progress →
        total = (tasksOfPhase (update_task_status s tid ns now).tasks t0.phase_id).length →
        (done = total ∧ 0 < total →
          ph1.status = .completed ∧ ph1.completed_at = some now ∧
          ph1.started_at = ph0.started_at) ∧
        (¬ (done = total ∧ 0 < total) → 0 < prog ∨ 0 < done →
          ph1.status = .in_progress ∧
          (ph0.started_at = none → ph1.started_at = some now) ∧
          (ph0.started_at ≠ none → ph1.started_at = ph0.started_at) ∧
          ph1.completed_at = ph0.completed_at) ∧
        (¬ (done = total ∧ 0 < total) → ¬ (0 < prog ∨ 0 < done) →
          ph1.status = .pending ∧ ph1.started_at = ph0.started_at ∧
          ph1.completed_at = ph0.completed_at)) := by
  have htasks : (update_task_status s tid ns now).tasks
      = s.tasks.map (fun t => if t.id == tid then applyTaskStatus ns now t else t) := rfl
  have hfind := updatedTasks_find? s tid ns now t0 ht
  have hphases : (update_task_status s tid ns now).phases
      = (s.phases.map (fun ph =>
          if ph.id == (applyTaskStatus ns now t0).phase_id then
            applyPhaseRollup now
              (countWithStatus (update_task_status s tid ns now).tasks
                (applyTaskStatus ns now t0).phase_id .completed)
              (countWithStatus (update_task_status s tid ns now).tasks
                (applyTaskStatus ns now t0).phase_id .in_progress)
              ((tasksOfPhase (update_task_status s tid ns now).tasks
                (applyTaskStatus ns now t0).phase_id).length) ph
          else ph)) := by
    show rollupPhases now s.phases _ _ = _
    rw [hfind]
    rfl
  rw [applyTaskStatus_phase_id] at hphases
  refine ⟨applyTaskStatus ns now t0, _,
    by rw [htasks]; exact hfind,
    by rw [hphases]
       exact rolledPhases_find? s.phases t0.phase_id now _ _ _ ph0 hp,
    ?_, ?_, ?_, ?_⟩
  · rintro rfl
    refine ⟨rfl, ?_, ?_, rfl⟩
    · intro h
      simp [applyTaskStatus, h]
    · intro h
      cases hs : t0.started_at with
      | none => exact absurd hs h
      | some x => simp [applyTaskStatus, hs]
  · rintro rfl
    exact ⟨rfl, rfl, rfl⟩
  · rintro rfl
    exact ⟨rfl, rfl, rfl⟩
  · intro done prog total hd hpr htot
    subst hd hpr htot
    unfold applyPhaseRollup
    refine ⟨?_, ?_, ?_⟩
    · intro h
      rw [if_pos h]
      exact ⟨rfl, rfl, rfl⟩
    · intro h1 h2
      rw [if_neg h1, if_pos h2]
      refine ⟨rfl, ?_, ?_, rfl⟩
      · intro h
        simp [h]
      · intro h
        cases hs : ph0.started_at with
        | none => exact absurd hs h
        | some x => simp [hs]
    · intro h1 h2
      rw [if_neg h1, if_neg h2]
      exact ⟨rfl, rfl, rfl⟩

/-- Concrete fixture: a fresh one-task project phase. -/
def wTask : Task :=
  { id := 1, phase_id := 1, task_order := 1, status := .pending,
    started_at := none, completed_at := none }

/-- Concrete fixture: the phase owning `wTask`. -/
def wPhase : Phase :=
  { id := 1, project_id := 1, phase_number := 1, status := .pending,
    target_start := none, target_end := none,
    started_at := none, completed_at := none }

/-- Concrete fixture: a one-phase one-task project state. -/
def wState : State :=
  { phases := [wPhase], tasks := [wTask], deps := [] }

/-- Witness for C1: completing the single task of `wState` (task set now all
completed and non-empty) rolls the owning phase up to `completed`. -/
theorem c1_update_task_status_witness :
    ∃ ph1, (update_task_status wState 1 Status.completed 100).phases.find?
        (fun p => p.id == wTask.phase_id) = some ph1 ∧ ph1.status = .completed := by
  obtain ⟨t1, ph1, -, hfind, -, -, -, hroll⟩ :=
    c1_update_task_status wState 1 .completed 100 wTask wPhase (by decide) (by decide)
  obtain ⟨hc, -, -⟩ := hroll _ _ _ rfl rfl rfl
  exact ⟨ph1, hfind, (hc (by decide)).1⟩

theorem applyTaskStatus_idem (ns : Status) (now : Nat) (t : Task) :
    applyTaskStatus ns now (applyTaskStatus ns now t) = applyTaskStatus ns now t := by
  cases ns <;> simp [applyTaskStatus]

theorem updateTaskRow_idem (tid : Nat) (ns : Status) (now : Nat) (l : List Task) :
    (l.map (fun t => if t.id == tid then applyTaskStatus ns now t else t)).map
      (fun t => if t.id == tid then applyTaskStatus ns now t else t)
    = l.map (fun t => if t.id == tid then applyTaskStatus ns now t else t) := by
  rw [List.map_map]
  refine List.map_congr_left ?_
  intro a _
  by_cases h : (a.id == tid) = true
  · simp [Function.comp, h, applyTaskStatus_idem]
  · simp [Function.comp, h]

theorem applyPhaseRollup_idem (now done prog total : Nat) (ph : Phase) :
    applyPhaseRollup now done prog total (applyPhaseRollup now done prog total ph)
      = applyPhaseRollup now done prog total ph := by
  unfold applyPhaseRollup
  split_ifs <;> simp_all

theorem rollupPhases_idem (now : Nat) (phases : List Phase) (tasks1 : List Task)
    (o : Option Task) :
    rollupPhases now (rollupPhases now phases tasks1 o) tasks1 o
      = rollupPhases now phases tasks1 o := by
  cases o with
  | none => rfl
  | some t =>
    simp only [rollupPhases, List.map_map]
    refine List.map_congr_left ?_
    intro ph _
    by_cases h : (ph.id == t.phase_id) = true
    · simp [Function.comp, h, applyPhaseRollup_idem]
    · simp [Function.comp, h]

/-- Claim C9: applying `update_task_status` twice with the same status at the
same current time yields the same state — the same task rows and the same
owning-phase row — as applying it once. -/
theorem c9_update_task_status_idempotent (s : State) (tid : Nat) (ns : Status) (now : Nat) :
    update_task_status (update_task_status s tid ns now) tid ns now
      = update_task_status s tid ns now := by
  have h2 : (update_task_status s tid ns now).tasks.map
      (fun t => if t.id == tid then applyTaskStatus ns now t else t)
      = (update_task_status s tid ns now).tasks :=
    updateTaskRow_idem tid ns now s.tasks
  show ({ phases := rollupPhases now (update_task_status s tid ns now).phases
            ((update_task_status s tid ns now).tasks.map
              (fun t => if t.id == tid then applyTaskStatus ns now t else t))
            (((update_task_status s tid ns now).tasks.map
              (fun t => if t.id == tid then applyTaskStatus ns now t else t)).find?
              (fun t => t.id == tid)),
          tasks := (update_task_status s tid ns now).tasks.map
            (fun t => if t.id == tid then applyTaskStatus ns now t else t),
          deps := (update_task_status s tid ns now).deps } : State)
      = update_task_status s tid ns now
  rw [h2]
  have h3 : rollupPhases now (update_task_status s tid ns now).phases
      (update_task_status s tid ns now).tasks
      ((update_task_status s tid ns now).tasks.find? (fun t => t.id == tid))
      = (update_task_status s tid ns now).phases :=
    rollupPhases_idem now s.phases (update_task_status s tid ns now).tasks
      ((update_task_status s tid ns now).tasks.find? (fun t => t.id == tid))
  rw [h3]

/-- Counterexample to C5 as stated: completing `wTask`, whose `started_at`
is null, yields status `completed` with `started_at` still null — the code
never writes `started_at` on the `completed` transition (app.py:604), so
"`completed` implies both timestamps set" fails. -/
theorem c5_counterexample :
    ∃ t1, (update_task_status wState 1 Status.completed 100).tasks.find?
        (fun t => t.id == 1) = some t1 ∧
      t1.status = .completed ∧ t1.started_at = none :=
  ⟨{ id := 1, phase_id := 1, task_order := 1, status := .completed,
     started_at := none, completed_at := some 100 }, by decide, by decide, by decide⟩

/-- Claim C5 (amended): after `update_task_status` with a valid status on an
existing task, the task's row satisfies: status equals the new status;
`pending` ⇒ both timestamps null; `in_progress` ⇒ `started_at` set;
`completed` ⇒ `completed_at` set.  (The code leaves a stale `completed_at`
on `in_progress` and never sets `started_at` on `completed`, so the stronger
original consistency fails — see the counterexample.) -/
theorem c5_task_timestamps (s : State) (tid : Nat) (ns : Status) (now : Nat)
    (t0 : Task) (ht : s.tasks.find? (fun t => t.id == tid) = some t0) :
    ∃ t1, (update_task_status s tid ns now).tasks.find? (fun t => t.id == tid) = some t1 ∧
      t1.status = ns ∧
      (ns = .pending → t1.started_at = none ∧ t1.completed_at = none) ∧
      (ns = .in_progress → ∃ x, t1.started_at = some x) ∧
      (ns = .completed → t1.completed_at = some now) := by
  refine ⟨applyTaskStatus ns now t0, updatedTasks_find? s tid ns now t0 ht,
    applyTaskStatus_status ns now t0, ?_, ?_, ?_⟩
  · rintro rfl
    exact ⟨rfl, rfl⟩
  · rintro rfl
    exact ⟨t0.started_at.getD now, rfl⟩
  · rintro rfl
    rfl

/-- Witness for the amended C5: resetting the fixture task to `pending`
clears both timestamps. -/
theorem c5_task_timestamps_witness :
    ∃ t1, (update_task_status wState 1 Status.pending 100).tasks.find?
        (fun t => t.id == 1) = some t1 ∧ t1.started_at = none ∧ t1.completed_at = none := by
  obtain ⟨t1, hf, -, hpend, -, -⟩ :=
    c5_task_timestamps wState 1 .pending 100 wTask (by decide)
  exact ⟨t1, hf, hpend rfl⟩

theorem filter_map_pres {α : Type} (f : α → α) (p : α → Bool)
    (h : ∀ a, p (f a) = p a) (l : List α) :
    (l.map f).filter p = (l.filter p).map f := by
  induction l with
  | nil => rfl
  | cons a l ih =>
    simp only [List.map_cons, List.filter_cons, h a]
    by_cases hpa : p a = true
    · simp [hpa, ih]
    · simp [hpa, ih]

/-- The status written by the rollup's phase `UPDATE` is exactly the rollup
of the task list whose counts were passed in. -/
theorem applyPhaseRollup_status (now : Nat) (ts : List Task) (ph : Phase) :
    (applyPhaseRollup now ((ts.filter (fun t => t.status == Status.completed)).length)
      ((ts.filter (fun t => t.status == Status.in_progress)).length) ts.length ph).status
    = rollupStatus ts := by
  simp only [applyPhaseRollup, rollupStatus]
  split_ifs <;> rfl

theorem map_eq_self {α : Type} (f : α → α) (l : List α) (h : ∀ a ∈ l, f a = a) :
    l.map f = l := by
  induction l with
  | nil => rfl
  | cons a l ih =>
    rw [List.map_cons, h a (by simp), ih (fun b hb => h b (by simp [hb]))]

/-- Shape of the phase table after `update_task_status` finds the task row:
only phases with the owning phase's id are rewritten. -/
theorem update_task_status_phases (s : State) (tid : Nat) (ns : Status) (now : Nat)
    (u0 : Task) (hf0 : s.tasks.find? (fun t => t.id == tid) = some u0) :
    (update_task_status s tid ns now).phases
      = s.phases.map (fun ph =>
          if ph.id == u0.phase_id then
            applyPhaseRollup now
              (countWithStatus (update_task_status s tid ns now).tasks u0.phase_id .completed)
              (countWithStatus (update_task_status s tid ns now).tasks u0.phase_id .in_progress)
              ((tasksOfPhase (update_task_status s tid ns now).tasks u0.phase_id).length) ph
          else ph) := by
  have hfind := updatedTasks_find? s tid ns now u0 hf0
  show rollupPhases now s.phases _ _ = _
  rw [hfind]
  simp only [rollupPhases, applyTaskStatus_phase_id]
  rfl

def wDoneTask : Task :=
  { id := 1, phase_id := 1, task_order := 1, status := .completed,
    started_at := some 5, completed_at := some 6 }

def wDonePhase : Phase :=
  { id := 1, project_id := 1, phase_number := 1, status := .completed,
    target_start := none, target_end := none,
    started_at := some 5, completed_at := some 6 }

/-- Concrete fixture: a consistent, fully completed one-task phase. -/
def wDoneState : State :=
  { phases := [wDonePhase], tasks := [wDoneTask], deps := [] }

/-- Counterexample to C10 as stated: `create_task` inserts a `pending` task
into the completed phase of `wDoneState` without recomputing the phase
(app.py:625-639), so the phase stays `completed` while the rollup of its
tasks is `in_progress` — the invariant does not survive task creation. -/
theorem c10_counterexample :
    phaseConsistent wDoneState = true ∧
    phaseConsistent (create_task wDoneState 1 2) = false := by
  constructor
  · decide
  · decide

/-- Claim C10 (amended): `update_task_status` preserves the invariant that
every phase's status equals the rollup of its tasks (task ids unique).  The
other mutating routes do not: `create_task` and `delete_task` never
recompute the owning phase and `update_phase` writes `status` directly from
the request body, so each of them can leave a phase status differing from
the rollup of its tasks — see the counterexample. -/
theorem c10_update_preserves_rollup (s : State) (tid : Nat) (ns : Status) (now : Nat)
    (hnodup : (s.tasks.map Task.id).Nodup)
    (hinv : phaseConsistent s = true) :
    phaseConsistent (update_task_status s tid ns now) = true := by
  cases hf0 : s.tasks.find? (fun t => t.id == tid) with
  | none =>
    have hnone : ∀ a ∈ s.tasks, ¬ ((a.id == tid) = true) := by
      simpa using List.find?_eq_none.mp hf0
    have htasks : s.tasks.map
        (fun t => if t.id == tid then applyTaskStatus ns now t else t) = s.tasks := by
      refine map_eq_self _ _ ?_
      intro a ha
      rw [if_neg (hnone a ha)]
    have hstate : update_task_status s tid ns now = s := by
      show ({ phases := rollupPhases now s.phases
                (s.tasks.map (fun t => if t.id == tid then applyTaskStatus ns now t else t))
                ((s.tasks.map (fun t => if t.id == tid then applyTaskStatus ns now t else t)).find?
                  (fun t => t.id == tid)),
              tasks := s.tasks.map (fun t => if t.id == tid then applyTaskStatus ns now t else t),
              deps := s.deps } : State) = s
      rw [htasks, hf0]
      rfl
    rw [hstate]
    exact hinv
  | some u0 =>
    have hid : (u0.id == tid) = true := by simpa using List.find?_some hf0
    have hmem : u0 ∈ s.tasks := List.mem_of_find?_eq_some hf0
    have hphases := update_task_status_phases s tid ns now u0 hf0
    simp only [phaseConsistent, List.all_eq_true] at hinv ⊢
    intro ph' hph'
    rw [hphases] at hph'
    obtain ⟨ph0, hph0, rfl⟩ := List.mem_map.mp hph'
    by_cases hc : (ph0.id == u0.phase_id) = true
    · rw [if_pos hc]
      have hpid : ph0.id = u0.phase_id := by simpa using hc
      rw [applyPhaseRollup_id, hpid]
      simp only [countWithStatus]
      rw [applyPhaseRollup_status]
      simp
    · rw [if_neg hc]
      have hsame : tasksOfPhase (update_task_status s tid ns now).tasks ph0.id
          = tasksOfPhase s.tasks ph0.id := by
        show tasksOfPhase (s.tasks.map
          (fun t => if t.id == tid then applyTaskStatus ns now t else t)) ph0.id = _
        unfold tasksOfPhase
        rw [filter_map_pres (fun t => if t.id == tid then applyTaskStatus ns now t else t)
              (fun t => t.phase_id == ph0.id)
              (fun a => by
                by_cases ha : (a.id == tid) = true
                · simp [ha]
                · simp [ha])]
        refine map_eq_self _ _ ?_
        intro t htf
        have htmem : t ∈ s.tasks := (List.mem_filter.mp htf).1
        have htph : (t.phase_id == ph0.id) = true := (List.mem_filter.mp htf).2
        have htid : ¬ ((t.id == tid) = true) := by
          intro habs
          have h1 : t.id = tid := by simpa using habs
          have h2 : u0.id = tid := by simpa using hid
          have hteq : t = u0 :=
            List.inj_on_of_nodup_map hnodup htmem hmem (h1.trans h2.symm)
          apply hc
          have h3 : t.phase_id = ph0.id := by simpa using htph
          rw [show ph0.id = u0.phase_id from by rw [← h3, hteq]]
          simp
        rw [if_neg htid]
      rw [hsame]
      exact hinv ph0 hph0

/-- Witness for the amended C10: starting the fixture task keeps the
one-phase state rollup-consistent. -/
theorem c10_update_preserves_rollup_witness :
    phaseConsistent (update_task_status wState 1 Status.in_progress 100) = true :=
  c10_update_preserves_rollup wState 1 .in_progress 100 (by decide) (by decide)

def xPrereq : Phase :=
  { id := 1, project_id := 8, phase_number := 1, status := .completed,
    target_start := none, target_end := none, started_at := some 1, completed_at := some 2 }

def xDependent : Phase :=
  { id := 2, project_id := 7, phase_number := 1, status := .pending,
    target_start := none, target_end := none, started_at := none, completed_at := none }

/-- Concrete fixture: project 7's only phase depends on a **completed**
phase of project 8 (cross-project edges are creatable via
`POST /api/phase/create`). -/
def xState : State :=
  { phases := [xPrereq, xDependent], tasks := [],
    deps := [{ project_id := 7, phase_id := 2, depends_on_phase_id := 1 }] }

/-- Counterexample to C3 as stated: `xDependent` is reported locked although
every phase it depends on (here `xPrereq`, in project 8) has status
`completed` — the status dict at app.py:312 holds only the displayed
project's phases, so the cross-project prerequisite reads as `None ≠
'completed'` and locks the phase, falsifying the claimed iff. -/
theorem c3_counterexample :
    is_locked xState 7 xDependent = true ∧
    (∀ d ∈ projectDeps xState 7, d.phase_id = xDependent.id →
      ∀ q ∈ xState.phases, q.id = d.depends_on_phase_id → q.status = .completed) := by
  constructor
  · decide
  · decide

/-- Claim C3 (amended): a phase of a project is reported locked iff at least
one of its `depends_on_phase_id` edges points at a phase id that either
belongs to a phase of the **same** project with status other than
`completed`, or belongs to no phase of the project at all (the status dict is
built from the project's phases only, so a cross-project prerequisite always
reads as locked, even when completed — see the counterexample); a phase with
no prerequisite edges is never locked; and `update_task_status` never
touches the row of a phase other than the updated task's owner, so
completing a prerequisite's last task unlocks its dependents — the lock
value being recomputed from the rows on each read — without any direct
mutation of them.  (Phase ids are unique per project.) -/
theorem c3_phase_lock (s : State) (proj : Nat) (ph : Phase)
    (hph : ph ∈ projectPhases s proj)
    (hnodup : ((projectPhases s proj).map Phase.id).Nodup) :
    (is_locked s proj ph = true ↔
      ∃ d ∈ projectDeps s proj, d.phase_id = ph.id ∧
        ((∃ q ∈ projectPhases s proj,
            q.id = d.depends_on_phase_id ∧ q.status ≠ .completed) ∨
         (∀ q ∈ projectPhases s proj, q.id ≠ d.depends_on_phase_id))) ∧
    ((∀ d ∈ projectDeps s proj, d.phase_id ≠ ph.id) → is_locked s proj ph = false) ∧
    (∀ tid ns now u0,
      s.tasks.find? (fun t => t.id == tid) = some u0 → u0.phase_id ≠ ph.id →
      ph ∈ (update_task_status s tid ns now).phases) := by
  have hmemP : ph ∈ s.phases := (List.mem_filter.mp hph).1
  refine ⟨⟨?_, ?_⟩, ?_, ?_⟩
  · intro h
    obtain ⟨d, hdf, hdp⟩ := List.any_eq_true.mp h
    have hd1 : d ∈ projectDeps s proj := (List.mem_filter.mp hdf).1
    have hd2 : d.phase_id = ph.id := by simpa using (List.mem_filter.mp hdf).2
    cases hfq : (projectPhases s proj).find? (fun p => p.id == d.depends_on_phase_id) with
    | none =>
      refine ⟨d, hd1, hd2, Or.inr ?_⟩
      intro q hq habs
      exact (List.find?_eq_none.mp hfq q hq) (by simpa using habs)
    | some q =>
      have hqmem : q ∈ projectPhases s proj := List.mem_of_find?_eq_some hfq
      have hqid : q.id = d.depends_on_phase_id := by simpa using List.find?_some hfq
      refine ⟨d, hd1, hd2, Or.inl ⟨q, hqmem, hqid, ?_⟩⟩
      intro habs
      simp only [statusOfPhase, hfq, Option.map_some'] at hdp
      simp [habs] at hdp
  · rintro ⟨d, hd1, hd2, hcase⟩
    refine List.any_eq_true.mpr ⟨d, List.mem_filter.mpr ⟨hd1, by simpa using hd2⟩, ?_⟩
    cases hfq : (projectPhases s proj).find? (fun p => p.id == d.depends_on_phase_id) with
    | none =>
      simp [statusOfPhase, hfq]
    | some q' =>
      have hq'mem : q' ∈ projectPhases s proj := List.mem_of_find?_eq_some hfq
      have hq'id : q'.id = d.depends_on_phase_id := by simpa using List.find?_some hfq
      rcases hcase with ⟨q, hqmem, hqid, hqst⟩ | hnone
      · have hq'q : q' = q :=
          List.inj_on_of_nodup_map hnodup hq'mem hqmem (hq'id.trans hqid.symm)
        subst hq'q
        simp only [statusOfPhase, hfq, Option.map_some']
        simpa using hqst
      · exact absurd hq'id (hnone q' hq'mem)
  · intro hnone
    have hempty : ((projectDeps s proj).filter (fun d => d.phase_id == ph.id)) = [] := by
      rw [List.filter_eq_nil_iff]
      intro d hd
      simpa using hnone d hd
    simp [is_locked, hempty]
  · intro tid ns now u0 hf0 hphid
    rw [update_task_status_phases s tid ns now u0 hf0]
    refine List.mem_map.mpr ⟨ph, hmemP, ?_⟩
    have hne : ¬ ((ph.id == u0.phase_id) = true) := by
      intro habs
      have heq : ph.id = u0.phase_id := by simpa using habs
      exact hphid heq.symm
    rw [if_neg hne]

def lkA : Phase :=
  { id := 1, project_id := 7, phase_number := 1, status := .pending,
    target_start := none, target_end := none, started_at := none, completed_at := none }

def lkB : Phase :=
  { id := 2, project_id := 7, phase_number := 2, status := .pending,
    target_start := none, target_end := none, started_at := none, completed_at := none }

/-- Concrete fixture for locking: phase B (id 2) depends on phase A (id 1),
A still pending, both in project 7. -/
def lkState : State :=
  { phases := [lkA, lkB], tasks := [],
    deps := [{ project_id := 7, phase_id := 2, depends_on_phase_id := 1 }] }

/-- Witness for the amended C3: with A `pending`, B is reported locked (via
the same-project branch of the iff) and A (no prerequisite edge) unlocked. -/
theorem c3_phase_lock_witness :
    is_locked lkState 7 lkB = true ∧ is_locked lkState 7 lkA = false := by
  have hB := c3_phase_lock lkState 7 lkB (by decide) (by decide)
  have hA := c3_phase_lock lkState 7 lkA (by decide) (by decide)
  constructor
  · exact hB.1.mpr ⟨{ project_id := 7, phase_id := 2, depends_on_phase_id := 1 },
      by decide, by decide, Or.inl ⟨lkA, by decide, by decide, by decide⟩⟩
  · exact hA.2.1 (by decide)

/-- Claim C4: the RAG health is gray iff a date is missing; otherwise, with
`total_days = max(target − start, 1)`, `expected_pct` the elapsed fraction
clamped to [0, 100], `actual_pct = completed / max(total, 1) × 100` and
`diff = actual_pct − expected_pct`, the health is green iff `diff ≥ −10`,
amber iff `−25 ≤ diff < −10`, red iff `diff < −25`. -/
theorem c4_rag_status (p : ProjSummary) (today : Int) :
    (rag_status p today = .gray ↔ p.start_date = none ∨ p.target_completion = none) ∧
    (∀ sd tc, p.start_date = some sd → p.target_completion = some tc →
      (ragDiff sd tc today p.total_tasks p.completed_tasks =
        (p.completed_tasks : ℚ) / ((max p.total_tasks 1 : ℕ) : ℚ) * 100
          - min 100 (max 0 (((today - sd : Int) : ℚ)
              / ((max (tc - sd) 1 : Int) : ℚ) * 100))) ∧
      (rag_status p today = .green ↔
        -10 ≤ ragDiff sd tc today p.total_tasks p.completed_tasks) ∧
      (rag_status p today = .amber ↔
        -25 ≤ ragDiff sd tc today p.total_tasks p.completed_tasks ∧
        ragDiff sd tc today p.total_tasks p.completed_tasks < -10) ∧
      (rag_status p today = .red ↔
        ragDiff sd tc today p.total_tasks p.completed_tasks < -25)) := by
  constructor
  · cases hs : p.start_date with
    | none => simp [rag_status, hs]
    | some sd =>
      cases ht : p.target_completion with
      | none => simp [rag_status, hs, ht]
      | some tc =>
        simp only [rag_status, hs, ht]
        split_ifs <;> simp
  · intro sd tc hsd htc
    refine ⟨?_, ?_, ?_, ?_⟩
    · have h1 : (if p.total_tasks = 0 then (1 : ℚ) else (p.total_tasks : ℚ))
          = ((max p.total_tasks 1 : ℕ) : ℚ) := by
        cases hp : p.total_tasks with
        | zero => simp
        | succ n => simp [Nat.max_eq_left (Nat.succ_le_succ (Nat.zero_le n))]
      simp only [ragDiff, h1, Int.cast_max, Int.cast_one]
    · simp only [rag_status, hsd, htc]
      by_cases h1 : (-10 : ℚ) ≤ ragDiff sd tc today p.total_tasks p.completed_tasks
      · rw [if_pos h1]
        exact iff_of_true rfl h1
      · rw [if_neg h1]
        by_cases h2 : (-25 : ℚ) ≤ ragDiff sd tc today p.total_tasks p.completed_tasks
        · rw [if_pos h2]
          exact iff_of_false (fun h => Rag.noConfusion h) h1
        · rw [if_neg h2]
          exact iff_of_false (fun h => Rag.noConfusion h) h1
    · simp only [rag_status, hsd, htc]
      by_cases h1 : (-10 : ℚ) ≤ ragDiff sd tc today p.total_tasks p.completed_tasks
      · rw [if_pos h1]
        exact iff_of_false (fun h => Rag.noConfusion h) (fun h => (not_le.mpr h.2) h1)
      · rw [if_neg h1]
        by_cases h2 : (-25 : ℚ) ≤ ragDiff sd tc today p.total_tasks p.completed_tasks
        · rw [if_pos h2]
          exact iff_of_true rfl ⟨h2, not_le.mp h1⟩
        · rw [if_neg h2]
          exact iff_of_false (fun h => Rag.noConfusion h) (fun h => h2 h.1)
    · simp only [rag_status, hsd, htc]
      by_cases h1 : (-10 : ℚ) ≤ ragDiff sd tc today p.total_tasks p.completed_tasks
      · rw [if_pos h1]
        refine iff_of_false (fun h => Rag.noConfusion h) (fun h => ?_)
        have : ¬ (-10 : ℚ) ≤ ragDiff sd tc today p.total_tasks p.completed_tasks := by
          linarith
        exact this h1
      · rw [if_neg h1]
        by_cases h2 : (-25 : ℚ) ≤ ragDiff sd tc today p.total_tasks p.completed_tasks
        · rw [if_pos h2]
          exact iff_of_false (fun h => Rag.noConfusion h) (fun h => (not_le.mpr h) h2)
        · rw [if_neg h2]
          exact iff_of_true rfl (not_le.mp h2)

/-- Witness for C4 (the spec's §8 examples): 10 of 20 days elapsed with 5 of
10 tasks done is green (`diff = 0`); with only 2 of 10 done it is red
(`diff = −30`). -/
theorem c4_rag_status_witness :
    rag_status ⟨some 0, some 20, 10, 5⟩ 10 = .green ∧
    rag_status ⟨some 0, some 20, 10, 2⟩ 10 = .red := by
  constructor
  · refine ((c4_rag_status ⟨some 0, some 20, 10, 5⟩ 10).2 0 20 rfl rfl).2.1.mpr ?_
    norm_num [ragDiff, max_def, min_def]
  · refine ((c4_rag_status ⟨some 0, some 20, 10, 2⟩ 10).2 0 20 rfl rfl).2.2.2.mpr ?_
    norm_num [ragDiff, max_def, min_def]

theorem schedulePhases_length (l : List TPhase) (start : Int) :
    (schedulePhases l start).length = l.length := by
  induction l generalizing start with
  | nil => rfl
  | cons p rest ih => simp [schedulePhases, ih]

theorem trackAdvance_cons (p : TPhase) (l : List TPhase) :
    trackAdvance (p :: l)
      = (if mainTrack p.phase_number then (p.duration_days : Int) else 0)
        + trackAdvance l := by
  simp [trackAdvance]

/-- Closed form of the scheduling loop: the i-th scheduled phase starts at
the start date plus the durations of the earlier main-track phases. -/
theorem schedulePhases_get? (l : List TPhase) (start : Int) (i : Nat) (h : i < l.length) :
    ∃ sp tp, (schedulePhases l start).get? i = some sp ∧ l.get? i = some tp ∧
      sp.phase_number = tp.phase_number ∧
      sp.status = .pending ∧
      sp.target_start = start + trackAdvance (l.take i) ∧
      sp.target_end = start + trackAdvance (l.take i) + (tp.duration_days : Int) := by
  induction l generalizing start i with
  | nil => simp at h
  | cons p rest ih =>
    cases i with
    | zero =>
      refine ⟨_, p, rfl, rfl, rfl, rfl, ?_, ?_⟩
      · simp [trackAdvance]
      · simp [trackAdvance]
    | succ j =>
      have hj : j < rest.length := by simpa using h
      obtain ⟨sp, tp, h1, h2, h3, h0, h4, h5⟩ :=
        ih (if mainTrack p.phase_number then start + (p.duration_days : Int) else start) j hj
      refine ⟨sp, tp, by simpa [schedulePhases] using h1, by simpa using h2, h3, h0, ?_, ?_⟩
      · rw [h4, List.take_succ_cons, trackAdvance_cons]
        split_ifs <;> ring
      · rw [h5, List.take_succ_cons, trackAdvance_cons]
        split_ifs <;> ring

/-- Claim C2: instantiation creates the template's phases in increasing
`phase_number` order (the read is `ORDER BY phase_number`; the materialized
phase list is sorted); each phase gets `target_start` equal to the cursor and
`target_end = target_start + duration_days`, where the cursor starts at the
project start date and advances by `duration_days` only after phases whose
`phase_number` is on the main sequential track {1, 2, 3}; every other phase
leaves the cursor unchanged, so its start equals the start date plus the
durations of the earlier main-track phases only. -/
theorem c2_create_project_schedule (T : Template) (start : Int)
    (hsorted : List.Sorted (fun a b => a.phase_number ≤ b.phase_number) T.phases) :
    (create_project_from_template T start).1.length = T.phases.length ∧
    (∀ i, i < T.phases.length →
      ∃ sp tp, (create_project_from_template T start).1.get? i = some sp ∧
        T.phases.get? i = some tp ∧
        sp.phase_number = tp.phase_number ∧
        sp.status = .pending ∧
        sp.target_start = start + trackAdvance (T.phases.take i) ∧
        sp.target_end = sp.target_start + (tp.duration_days : Int)) := by
  have hs : sortPhases T.phases = T.phases := hsorted.insertionSort_eq
  have hfst : (create_project_from_template T start).1 = schedulePhases T.phases start := by
    show schedulePhases (sortPhases T.phases) start = _
    rw [hs]
  constructor
  · rw [hfst, schedulePhases_length]
  · intro i hi
    obtain ⟨sp, tp, h1, h2, h3, h0, h4, h5⟩ := schedulePhases_get? T.phases start i hi
    refine ⟨sp, tp, by rw [hfst]; exact h1, h2, h3, h0, h4, ?_⟩
    rw [h5, h4]

/-- Concrete fixture: a three-phase template whose third phase (number 4) is
off the main track. -/
def wTpl : Template :=
  { template_name := "Onboarding", description := "", version := "1.0",
    phases := [{ phase_number := 1, phase_name := "Prerequisites", duration_days := 10,
                 tasks := [] },
               { phase_number := 2, phase_name := "Infra", duration_days := 5,
                 tasks := [] },
               { phase_number := 4, phase_name := "Perf", duration_days := 7,
                 tasks := [] }],
    deps := [{ phase_number := 2, depends_on_phase_number := 1 },
             { phase_number := 4, depends_on_phase_number := 2 }] }

/-- Witness for C2: the fixture template instantiates to exactly its three
phases. -/
theorem c2_create_project_schedule_witness :
    (create_project_from_template wTpl 100).1.length = wTpl.phases.length :=
  (c2_create_project_schedule wTpl 100 (by decide)).1

/-- A template as materialized from the store: phases in `phase_number`
order, tasks in `task_order` order (both unique per the schema's UNIQUE
constraints, and every read in app.py uses the matching `ORDER BY`). -/
def TemplateMaterialized (T : Template) : Prop :=
  List.Sorted (fun a b => a.phase_number ≤ b.phase_number) T.phases ∧
  ∀ p ∈ T.phases, List.Sorted (fun a b => a.task_order ≤ b.task_order) p.tasks

instance (T : Template) : Decidable (TemplateMaterialized T) := by
  unfold TemplateMaterialized
  exact inferInstance

theorem strip_map_idem (ts : List TTask) :
    (ts.map stripTask).map stripTask = ts.map stripTask := by
  rw [List.map_map]
  exact List.map_congr_left (fun t _ => rfl)

/-- Concrete fixture: a two-phase template with tasks, actions, an edge and
a non-null `jira_reference` / `notes` on its first task. -/
def wRichTpl : Template :=
  { template_name := "Base", description := "base template", version := "2.0",
    phases :=
      [{ phase_number := 1, phase_name := "P1", duration_days := 14,
         tasks :=
           [{ task_order := 1, task_name := "T1", category := "General",
              description := "first", ownership := "Platform Team",
              instructions := "do it", jira_reference := some "APP-123",
              sample_reference := none, notes := some "check twice",
              estimated_minutes := 30, priority := "high",
              automation_type := "manual", automation_config := "\x7b\x7d",
              actions := [{ action_type := "link", action_label := "Doc",
                            action_url := "https://example.test" }] },
            { task_order := 2, task_name := "T2", category := "General",
              description := "second", ownership := "App Team",
              instructions := "", jira_reference := none,
              sample_reference := none, notes := none,
              estimated_minutes := 45, priority := "medium",
              automation_type := "semi_auto", automation_config := "\x7b\x7d",
              actions := [] }] },
       { phase_number := 2, phase_name := "P2", duration_days := 7,
         tasks :=
           [{ task_order := 1, task_name := "T3", category := "Deploy",
              description := "third", ownership := "Platform Team",
              instructions := "", jira_reference := none,
              sample_reference := none, notes := none,
              estimated_minutes := 60, priority := "critical",
              automation_type := "auto", automation_config := "\x7b\x7d",
              actions := [] }] }],
    deps := [{ phase_number := 2, depends_on_phase_number := 1 }] }

/-- Counterexample to C6 as stated: `wRichTpl`'s first task carries
`jira_reference = some "APP-123"`, but both the clone and the
export→import copy null it out (their task INSERTs never list the
`jira_reference` / `sample_reference` / `notes` columns), so the copies do
not have the same field values for every task. -/
theorem c6_counterexample :
    (wRichTpl.phases.map (fun p => p.tasks.map TTask.jira_reference))
      = [[some "APP-123", none], [none]] ∧
    ((api_clone_template wRichTpl "").phases.map
        (fun p => p.tasks.map TTask.jira_reference))
      = [[none, none], [none]] ∧
    ((api_import_template (api_export_template wRichTpl) [] "x").phases.map
        (fun p => p.tasks.map TTask.jira_reference))
      = [[none, none], [none]] := by
  refine ⟨by decide, by decide, by decide⟩

/-- Claim C6 (amended): for a materialized template, cloning and
`import ∘ export` each reproduce the phase list — same phase count, fields,
per-phase task count and order, every task action, the dependency edge set,
the description and the version — except that each copied task's
`jira_reference`, `sample_reference` and `notes` are reset to NULL (the copy
routes never carry those three columns, see the counterexample); all other
task fields are preserved; only the freshly assigned row identities (not
modeled) and the template name (clone suffix / collision rename) may also
differ. -/
theorem c6_clone_export_import_roundtrip (T : Template) (new_name : String)
    (names : List String) (suffix : String)
    (h : TemplateMaterialized T) :
    ((api_clone_template T new_name).phases
        = T.phases.map (fun p => { p with tasks := p.tasks.map stripTask }) ∧
     (api_clone_template T new_name).deps = T.deps ∧
     (api_clone_template T new_name).description = T.description ∧
     (api_clone_template T new_name).version = T.version) ∧
    ((api_import_template (api_export_template T) names suffix).phases
        = T.phases.map (fun p => { p with tasks := p.tasks.map stripTask }) ∧
     (api_import_template (api_export_template T) names suffix).deps = T.deps ∧
     (api_import_template (api_export_template T) names suffix).description
        = T.description ∧
     (api_import_template (api_export_template T) names suffix).version = T.version) ∧
    (∀ t : TTask,
      (stripTask t).task_order = t.task_order ∧
      (stripTask t).task_name = t.task_name ∧
      (stripTask t).category = t.category ∧
      (stripTask t).description = t.description ∧
      (stripTask t).ownership = t.ownership ∧
      (stripTask t).instructions = t.instructions ∧
      (stripTask t).estimated_minutes = t.estimated_minutes ∧
      (stripTask t).priority = t.priority ∧
      (stripTask t).automation_type = t.automation_type ∧
      (stripTask t).automation_config = t.automation_config ∧
      (stripTask t).actions = t.actions ∧
      (stripTask t).jira_reference = none ∧
      (stripTask t).sample_reference = none ∧
      (stripTask t).notes = none) := by
  obtain ⟨hp, ht⟩ := h
  have hs : sortPhases T.phases = T.phases := hp.insertionSort_eq
  have hclone : (sortPhases T.phases).map
      (fun p => { p with tasks := (sortTasks p.tasks).map stripTask })
      = T.phases.map (fun p => { p with tasks := p.tasks.map stripTask }) := by
    rw [hs]
    refine List.map_congr_left ?_
    intro p hpmem
    have hst : sortTasks p.tasks = p.tasks := (ht p hpmem).insertionSort_eq
    rw [hst]
  refine ⟨⟨hclone, rfl, rfl, rfl⟩, ⟨?_, rfl, rfl, rfl⟩,
    fun t => ⟨rfl, rfl, rfl, rfl, rfl, rfl, rfl, rfl, rfl, rfl, rfl, rfl, rfl, rfl⟩⟩
  show ((sortPhases T.phases).map
      (fun p => ({ p with tasks := (sortTasks p.tasks).map stripTask } : TPhase))).map
      (fun p => ({ p with tasks := p.tasks.map stripTask } : TPhase))
    = T.phases.map (fun p => ({ p with tasks := p.tasks.map stripTask } : TPhase))
  rw [hclone, List.map_map]
  refine List.map_congr_left ?_
  intro p hpmem
  show ({ p with tasks := (p.tasks.map stripTask).map stripTask } : TPhase)
      = ({ p with tasks := p.tasks.map stripTask } : TPhase)
  rw [strip_map_idem]

/-- Witness for the amended C6 on the rich fixture (including a name
collision seen by the importing route, which only renames): both copies
equal the original with the three reference columns nulled. -/
theorem c6_clone_export_import_roundtrip_witness :
    (api_clone_template wRichTpl "").phases
      = wRichTpl.phases.map (fun p => { p with tasks := p.tasks.map stripTask }) ∧
    (api_import_template (api_export_template wRichTpl) ["Base"] "sfx").phases
      = wRichTpl.phases.map (fun p => { p with tasks := p.tasks.map stripTask }) := by
  have h := c6_clone_export_import_roundtrip wRichTpl "" ["Base"] "sfx" (by decide)
  exact ⟨h.1.1, h.2.1.1⟩

/-- Concrete import payload whose single dependency entry references phase
numbers absent from `phases`. -/
def badImport : ExportData :=
  { template_name := "Bad", description := "", version := "1.0",
    phases := [{ phase_number := 1, phase_name := "Only", duration_days := 14,
                 tasks := [] }],
    dependencies := [{ phase_number := 2, depends_on_phase_number := 5 }] }

/-- Counterexample to C7: `api_import_template` stores the dangling edge
(2 → 5) verbatim and succeeds, although neither phase number occurs among
the input's phases — no validation or rejection happens (app.py:958-961). -/
theorem c7_counterexample :
    (api_import_template badImport [] "x").deps
        = [{ phase_number := 2, depends_on_phase_number := 5 }] ∧
    ¬ ((badImport.phases.map TPhase.phase_number).contains 2 = true) ∧
    ¬ ((badImport.phases.map TPhase.phase_number).contains 5 = true) :=
  ⟨rfl, by decide, by decide⟩

/-- Claim C7 (amended): the import route performs no validation of the
dependencies list — every entry is inserted verbatim, whether or not its
phase numbers occur among the input's phases — while the instantiation-time
translation keeps an edge exactly when both its endpoints are phase numbers
of the template, silently dropping dangling edges. -/
theorem c7_import_no_validation (E : ExportData) (names : List String) (suffix : String)
    (T : Template) (d : TDep) :
    (api_import_template E names suffix).deps = E.dependencies ∧
    (d ∈ instantiateDeps T ↔
      d ∈ T.deps ∧ d.phase_number ∈ T.phases.map TPhase.phase_number ∧
        d.depends_on_phase_number ∈ T.phases.map TPhase.phase_number) := by
  refine ⟨rfl, ?_⟩
  unfold instantiateDeps
  rw [List.mem_filter]
  simp

theorem replaceFirst_find? {α : Type} (p : α → Bool) (f : α → α) (l : List α)
    (hf : ∀ a, p a = true → p (f a) = true) :
    (replaceFirst p f l).find? p = (l.find? p).map f := by
  induction l with
  | nil => rfl
  | cons a l ih =>
    by_cases hpa : p a = true
    · rw [replaceFirst, if_pos hpa, List.find?_cons_of_pos _ (hf a hpa),
          List.find?_cons_of_pos _ hpa]
      rfl
    · rw [replaceFirst, if_neg hpa, List.find?_cons_of_neg _ (by simpa using hpa),
          List.find?_cons_of_neg _ (by simpa using hpa), ih]

theorem replaceFirst_mem {α : Type} (p : α → Bool) (f : α → α) (l : List α)
    (r : α) (hr : r ∈ l) (hp : p r = false) : r ∈ replaceFirst p f l := by
  induction l with
  | nil => cases hr
  | cons a l ih =>
    by_cases hpa : p a = true
    · rw [replaceFirst, if_pos hpa]
      rcases List.mem_cons.mp hr with h | h
      · subst h
        rw [hp] at hpa
        cases hpa
      · exact List.mem_cons_of_mem _ h
    · rw [replaceFirst, if_neg hpa]
      rcases List.mem_cons.mp hr with h | h
      · subst h
        exact List.mem_cons_self _ _
      · exact List.mem_cons_of_mem _ (ih h)

theorem find?_append_none {α : Type} (p : α → Bool) (l1 l2 : List α)
    (h : l1.find? p = none) : (l1 ++ l2).find? p = l2.find? p := by
  induction l1 with
  | nil => rfl
  | cons a l ih =>
    by_cases hpa : p a = true
    · rw [List.find?_cons_of_pos _ hpa] at h
      cases h
    · rw [List.find?_cons_of_neg _ (by simpa using hpa)] at h
      rw [List.cons_append, List.find?_cons_of_neg _ (by simpa using hpa), ih h]

/-- The phase-deadline upsert stores exactly the new field values under the
`(phase_id, ownership)` key. -/
theorem api_set_phase_deadline_find? (store : List PhaseDeadline) (pid : Nat)
    (own : String) (planned agreed actual : Option CDate) (notes : String) :
    (api_set_phase_deadline store pid own planned agreed actual notes).find?
        (pdKey pid own)
      = some { phase_id := pid, ownership := own, planned_date := planned,
               agreed_date := agreed, actual_date := actual,
               variance_days := calc_variance agreed actual, notes := notes } := by
  unfold api_set_phase_deadline
  by_cases hany : store.any (pdKey pid own) = true
  · rw [if_pos hany, replaceFirst_find? _ _ _ ?hf]
    case hf =>
      intro a ha
      simpa [pdKey] using (by simpa [pdKey] using ha : a.phase_id = pid ∧ a.ownership = own)
    cases hfr : store.find? (pdKey pid own) with
    | none =>
      exfalso
      obtain ⟨r, hrmem, hrp⟩ := List.any_eq_true.mp hany
      exact (List.find?_eq_none.mp hfr r hrmem) hrp
    | some r =>
      have hkey := List.find?_some hfr
      have h1 : r.phase_id = pid ∧ r.ownership = own := by simpa [pdKey] using hkey
      rw [Option.map_some']
      cases r
      simp only at h1
      simp [h1.1, h1.2]
  · rw [if_neg hany]
    have hnone : store.find? (pdKey pid own) = none := by
      rw [List.find?_eq_none]
      intro r hrmem hrp
      exact hany (List.any_eq_true.mpr ⟨r, hrmem, hrp⟩)
    rw [find?_append_none _ _ _ hnone]
    rw [List.find?_cons_of_pos _ (by simp [pdKey])]

/-- The task-deadline upsert stores exactly the new field values under the
`task_id` key. -/
theorem api_set_task_deadline_find? (store : List TaskDeadline) (tid : Nat)
    (planned agreed actual : Option CDate) (notes : String) :
    (api_set_task_deadline store tid planned agreed actual notes).find?
        (fun r => r.task_id == tid)
      = some { task_id := tid, planned_date := planned, agreed_date := agreed,
               actual_date := actual, variance_days := calc_variance agreed actual,
               notes := notes } := by
  unfold api_set_task_deadline
  by_cases hany : store.any (fun r => r.task_id == tid) = true
  · rw [if_pos hany, replaceFirst_find? _ _ _ ?hf]
    case hf =>
      intro a ha
      simpa using (by simpa using ha : a.task_id = tid)
    cases hfr : store.find? (fun r => r.task_id == tid) with
    | none =>
      exfalso
      obtain ⟨r, hrmem, hrp⟩ := List.any_eq_true.mp hany
      exact (List.find?_eq_none.mp hfr r hrmem) hrp
    | some r =>
      have hkey := List.find?_some hfr
      have h1 : r.task_id = tid := by simpa using hkey
      rw [Option.map_some']
      cases r
      simp only at h1
      simp [h1]
  · rw [if_neg hany]
    have hnone : store.find? (fun r => r.task_id == tid) = none := by
      rw [List.find?_eq_none]
      intro r hrmem hrp
      exact hany (List.any_eq_true.mpr ⟨r, hrmem, hrp⟩)
    rw [find?_append_none _ _ _ hnone]
    rw [List.find?_cons_of_pos _ (by simp)]

/-- Slip categories partition the non-null variances. -/
theorem variance_partition (ds : List PhaseDeadline) :
    (api_project_variance ds).on_time + (api_project_variance ds).minor_slip
      + (api_project_variance ds).major_slip
    = (ds.filterMap PhaseDeadline.variance_days).length := by
  induction ds with
  | nil => rfl
  | cons r ds ih =>
    simp only [api_project_variance] at ih ⊢
    cases hv : r.variance_days with
    | none =>
      have h1 : onTime none = false := rfl
      have h2 : minorSlip none = false := rfl
      have h3 : majorSlip none = false := rfl
      simp only [List.filter_cons, List.filterMap_cons, hv, h1, h2, h3]
      simpa using ih
    | some n =>
      have e1 : onTime (some n) = decide (n ≤ 0) := rfl
      have e2 : minorSlip (some n) = decide (0 < n ∧ n ≤ 3) := rfl
      have e3 : majorSlip (some n) = decide (3 < n) := rfl
      simp only [List.filter_cons, List.filterMap_cons, hv, e1, e2, e3]
      by_cases h0 : n ≤ 0
      · have hm : ¬ (0 < n ∧ n ≤ 3) := by omega
        have h4 : ¬ (3 < n) := by omega
        simp [h0, hm, h4]
        omega
      · by_cases h3 : n ≤ 3
        · have hm : 0 < n ∧ n ≤ 3 := by omega
          have h4 : ¬ (3 < n) := by omega
          simp [h0, hm.1, hm.2, h4]
          omega
        · have h4 : 3 < n := by omega
          have hm : ¬ (0 < n ∧ n ≤ 3) := by omega
          simp [h0, hm, h4]
          omega

/-- Claim C8: the deadline upserts are keyed by `(phase_id, ownership)`
respectively `task_id` and store `variance_days = actual − agreed` in days
when both dates are present, NULL otherwise; the project variance report
counts a phase deadline on-time iff its variance is non-null and ≤ 0, minor
slip iff 0 < variance ≤ 3, major slip iff variance > 3 (the three classes
partition the non-null variances) and averages exactly the deadlines with a
non-null variance; agreed 2024-01-10 with actual 2024-01-15 gives
`variance_days = 5`, a major slip. -/
theorem c8_deadline_variance (store : List PhaseDeadline) (pid : Nat) (own : String)
    (planned agreed actual : Option CDate) (notes : String)
    (tstore : List TaskDeadline) (tid : Nat) (ds : List PhaseDeadline) :
    (∀ a b : CDate, calc_variance (some a) (some b)
        = some (toEpochDays b - toEpochDays a)) ∧
    (∀ b, calc_variance none b = none) ∧
    (∀ a, calc_variance a none = none) ∧
    ((api_set_phase_deadline store pid own planned agreed actual notes).find?
        (pdKey pid own)
      = some { phase_id := pid, ownership := own, planned_date := planned,
               agreed_date := agreed, actual_date := actual,
               variance_days := calc_variance agreed actual, notes := notes }) ∧
    (∀ r ∈ store, pdKey pid own r = false →
      r ∈ api_set_phase_deadline store pid own planned agreed actual notes) ∧
    ((api_set_task_deadline tstore tid planned agreed actual notes).find?
        (fun r => r.task_id == tid)
      = some { task_id := tid, planned_date := planned, agreed_date := agreed,
               actual_date := actual, variance_days := calc_variance agreed actual,
               notes := notes }) ∧
    (∀ v : Option Int,
      (onTime v = true ↔ ∃ n, v = some n ∧ n ≤ 0) ∧
      (minorSlip v = true ↔ ∃ n, v = some n ∧ 0 < n ∧ n ≤ 3) ∧
      (majorSlip v = true ↔ ∃ n, v = some n ∧ 3 < n)) ∧
    ((api_project_variance ds).on_time + (api_project_variance ds).minor_slip
        + (api_project_variance ds).major_slip
      = (ds.filterMap PhaseDeadline.variance_days).length) ∧
    ((api_project_variance ds).avg_variance
      = if (ds.filterMap PhaseDeadline.variance_days).isEmpty then none
        else some (((ds.filterMap PhaseDeadline.variance_days).map
            (fun n => (n : ℚ))).sum
          / ((ds.filterMap PhaseDeadline.variance_days).length : ℚ))) ∧
    (calc_variance (some ⟨2024, 1, 10⟩) (some ⟨2024, 1, 15⟩) = some 5 ∧
     majorSlip (some 5) = true ∧ minorSlip (some 5) = false) := by
  refine ⟨fun a b => rfl, fun b => ?_, fun a => ?_,
    api_set_phase_deadline_find? store pid own planned agreed actual notes,
    ?_,
    api_set_task_deadline_find? tstore tid planned agreed actual notes,
    ?_, variance_partition ds, rfl, by decide, by decide, by decide⟩
  · cases b <;> rfl
  · cases a <;> rfl
  · intro r hr hpr
    unfold api_set_phase_deadline
    by_cases hany : store.any (pdKey pid own) = true
    · rw [if_pos hany]
      exact replaceFirst_mem _ _ _ r hr hpr
    · rw [if_neg hany]
      exact List.mem_append_left _ hr
  · intro v
    refine ⟨?_, ?_, ?_⟩ <;> cases v <;> simp [onTime, minorSlip, majorSlip]

/-- Witness for C8: upserting into an empty store with the spec's example
dates lands a record with variance 5, classified major slip. -/
theorem c8_deadline_variance_witness :
    (api_set_phase_deadline [] 3 "Platform Team" none (some ⟨2024, 1, 10⟩)
        (some ⟨2024, 1, 15⟩) "").find? (pdKey 3 "Platform Team")
      = some { phase_id := 3, ownership := "Platform Team", planned_date := none,
               agreed_date := some ⟨2024, 1, 10⟩, actual_date := some ⟨2024, 1, 15⟩,
               variance_days := some 5, notes := "" } ∧
    majorSlip (some 5) = true := by
  obtain ⟨-, -, -, hfind, -, -, -, -, -, hex⟩ :=
    c8_deadline_variance [] 3 "Platform Team" none (some ⟨2024, 1, 10⟩)
      (some ⟨2024, 1, 15⟩) "" [] 0 []
  refine ⟨?_, hex.2.1⟩
  rw [hex.1] at hfind
  exact hfind

end Onboarding
